import Mathlib

/-!
# Verification of the KasperWebsiteBuilder credit-ledger and job-orchestration core

Shallow embedding of the deposit-reconciliation engine
(`src/services/depositService.js`), of the generation-job orchestrator
(`src/server.js`: `POST /start-generation`, `doWebsiteGeneration`,
`GET /progress`) and of the fractional-cost section refresh
(`POST /generate-section`).

Credits are JS numbers used at rational values (1, 0.25, amounts divided by
1e8); we embed them as `ℚ`.  External effects (the two chain-feed HTTP
clients, the OpenAI content provider, the Mongo document store) are embedded
as explicit inputs: a scan receives the list of transactions the feed
returned, and the generation pipeline receives an outcome record saying
which external calls succeeded and with what payload.
-/

namespace KasperBuilder

/-! ## Data model (src/models/User.js) -/

/-- Coin type of a processed deposit: `'KAS'` or `'KASPER'`
(`ProcessedTransactionSchema.coinType`). -/
inductive CoinType where
  | KAS : CoinType
  | KASPER : CoinType
deriving DecidableEq, Repr

/-- One entry of `user.processedTransactions`
(`ProcessedTransactionSchema` in src/models/User.js): the external
transaction hash, the coin type, the amount in whole coins and the credits
that were added for it. -/
structure ProcessedTx where
  txid : String
  coinType : CoinType
  amount : ℚ
  creditsAdded : ℚ
deriving DecidableEq, Repr

/-- The slice of the `User` document that the reconciler and orchestrator
read and write: `walletAddress`, `credits`,
`processedTransactions` (src/models/User.js). -/
structure UserState where
  walletAddress : String
  credits : ℚ
  processedTransactions : List ProcessedTx
deriving DecidableEq, Repr

/-! ## Chain feed events (src/services/depositService.js) -/

/-- A KRC20 (KASPER) operation as returned by the kasplex `oplist` feed:
fields `hashRev`, `amt` (raw sompi, parsed with `parseInt`), `op`, `to`. -/
structure KasperTx where
  hashRev : String
  amt : ℕ
  op : String
  /-- the feed's `to` field (destination address) -/
  toAddr : String
deriving DecidableEq, Repr

/-- One output of a Kaspa (KAS) transaction from the `full-transactions`
feed: `script_public_key_address` and `amount` in sompi. -/
structure KaspaOutput where
  script_public_key_address : String
  amount : ℕ
deriving DecidableEq, Repr

/-- A Kaspa (KAS) transaction from the `full-transactions` feed:
field `hash` and the list of `outputs`. -/
structure KaspaTx where
  hash : String
  outputs : List KaspaOutput
deriving DecidableEq, Repr

/-! ## Conversion constants (src/services/depositService.js lines 6-10) -/

/-- `CREDIT_CONVERSION.KAS = 1 / 1`: one credit per KAS. -/
def CREDIT_CONVERSION_KAS : ℚ := 1 / 1

/-- `CREDIT_CONVERSION.KASPER = 1 / 800`: one credit per 800 KASPER. -/
def CREDIT_CONVERSION_KASPER : ℚ := 1 / 800

/-- The per-chain scale factor `1e8` (sompi per whole coin) used in
`parseInt(tx.amt, 10) / 1e8` and `parseInt(out.amount, 10) / 1e8`. -/
def SOMPI_PER_COIN : ℚ := 100000000

/-! ## KASPER (KRC20) deposit processing
(`processUserKasperDeposits`, src/services/depositService.js lines 15-65).
The loop body is embedded as a step function, and the loop over
`response.data.result` as a left fold. -/

/-- JS `String.prototype.toLowerCase()` on the ASCII operation tags the
feed uses: lowercase each character. -/
def jsToLower (s : String) : String := String.mk (s.data.map Char.toLower)

/-- Whether `user.processedTransactions` already has an entry whose `txid`
equals the given hash: `user.processedTransactions.some((t) => t.txid === h)`.
Note the check compares only `txid`, not `coinType`. -/
def alreadyProcessed (u : UserState) (h : String) : Bool :=
  u.processedTransactions.any (fun t => t.txid == h)

/-- Loop body of `processUserKasperDeposits` for one feed entry `tx`:
credit `amt * CREDIT_CONVERSION.KASPER` and push a `ProcessedTx` iff
`op.toLowerCase() === "transfer"`, `to === walletAddress` and the hash is
not already processed; otherwise leave the user unchanged. -/
def kasperStep (u : UserState) (tx : KasperTx) : UserState :=
  let amt : ℚ := (tx.amt : ℚ) / SOMPI_PER_COIN
  if jsToLower tx.op == "transfer" && (tx.toAddr == u.walletAddress)
      && !(alreadyProcessed u tx.hashRev) then
    let creditsToAdd := amt * CREDIT_CONVERSION_KASPER
    { u with
      credits := u.credits + creditsToAdd
      processedTransactions := u.processedTransactions ++
        [{ txid := tx.hashRev, coinType := CoinType.KASPER,
           amount := amt, creditsAdded := creditsToAdd }] }
  else
    u

/-- `processUserKasperDeposits(user)` applied to the transaction list the
KASPER feed returned for `user.walletAddress`. -/
def processUserKasperDeposits (u : UserState) (txs : List KasperTx) : UserState :=
  txs.foldl kasperStep u

/-! ## KAS (Kaspa) deposit processing
(`processUserKaspaDeposits`, src/services/depositService.js lines 70-119). -/

/-- `sumToUser`: the sum over `tx.outputs` of `parseInt(out.amount)/1e8`
restricted to outputs whose `script_public_key_address` equals the scanned
address. -/
def sumToUser (addr : String) (tx : KaspaTx) : ℚ :=
  tx.outputs.foldl
    (fun s o =>
      if o.script_public_key_address == addr then s + (o.amount : ℚ) / SOMPI_PER_COIN
      else s) 0

/-- Loop body of `processUserKaspaDeposits` for one feed transaction:
credit `sumToUser * CREDIT_CONVERSION.KAS` and push a `ProcessedTx` iff
`sumToUser > 0` and the hash is not already processed. -/
def kaspaStep (u : UserState) (tx : KaspaTx) : UserState :=
  let s := sumToUser u.walletAddress tx
  if 0 < s ∧ ¬ (alreadyProcessed u tx.hash = true) then
    let creditsToAdd := s * CREDIT_CONVERSION_KAS
    { u with
      credits := u.credits + creditsToAdd
      processedTransactions := u.processedTransactions ++
        [{ txid := tx.hash, coinType := CoinType.KAS,
           amount := s, creditsAdded := creditsToAdd }] }
  else
    u

/-- `processUserKaspaDeposits(user)` applied to the transaction list the
KAS feed returned for `user.walletAddress`. -/
def processUserKaspaDeposits (u : UserState) (txs : List KaspaTx) : UserState :=
  txs.foldl kaspaStep u

/-- `fetchAndProcessUserDeposits` (src/services/depositService.js lines
124-136): process the KASPER feed, then the KAS feed, on the same
in-memory user document; the document is saved at the end. -/
def fetchAndProcessUserDeposits (u : UserState)
    (kasperTxs : List KasperTx) (kaspaTxs : List KaspaTx) : UserState :=
  processUserKaspaDeposits (processUserKasperDeposits u kasperTxs) kaspaTxs

/-! ## Job registry and orchestrator (src/server.js)

`progressMap[requestId]` entries, the `POST /start-generation` route and the
background `doWebsiteGeneration` task.  The background task's writes to its
`progressMap` entry are embedded as an explicit event list so that the order
of the writes (the observable history of `GET /progress` polls) is part of
the model, not only the final state. -/

/-- `progressMap[requestId].status`: `'in-progress' | 'done' | 'error'`. -/
inductive JobStatus where
  | inProgress : JobStatus
  | done : JobStatus
  | error : JobStatus
deriving DecidableEq, Repr

/-- One mutation of a `progressMap` entry performed by the pipeline. -/
inductive JobEvent where
  | setProgress : ℕ → JobEvent
  | setStatus : JobStatus → JobEvent
  | setCode : String → JobEvent
  | setImages : String → String → String → JobEvent
deriving DecidableEq, Repr

/-- A `progressMap[requestId]` entry:
`{ status, progress, code, images: {navLogo, footerImg, heroBg} }`. -/
structure JobEntry where
  status : JobStatus
  progress : ℕ
  code : Option String
  navLogo : Option String
  footerImg : Option String
  heroBg : Option String
deriving DecidableEq, Repr

/-- The entry inserted by `POST /start-generation` (src/server.js lines
103-108): `{ status: 'in-progress', progress: 0, code: null, images: {} }`. -/
def initialJob : JobEntry :=
  { status := JobStatus.inProgress, progress := 0, code := none,
    navLogo := none, footerImg := none, heroBg := none }

/-- Apply one pipeline write to a `progressMap` entry. -/
def applyEvent (j : JobEntry) : JobEvent → JobEntry
  | JobEvent.setProgress p => { j with progress := p }
  | JobEvent.setStatus s => { j with status := s }
  | JobEvent.setCode c => { j with code := some c }
  | JobEvent.setImages nav foot hero =>
      { j with navLogo := some nav, footerImg := some foot, heroBg := some hero }

/-- Replay a list of pipeline writes onto an entry. -/
def applyEvents (j : JobEntry) (es : List JobEvent) : JobEntry :=
  es.foldl applyEvent j

/-- Outcome of the external calls one `doWebsiteGeneration` run makes:
whether `userInputs` had `coinName` and `colorPalette` (the missing-field
check throws), the chat-completion result (`none` = the call threw), the
two image calls (each has a local `try/catch` with a fallback), and whether
the final `user.save()` succeeded. -/
structure GenOutcome where
  inputsValid : Bool
  gptResult : Option String
  logoResult : Option String
  heroResult : Option String
  saveOk : Bool
deriving DecidableEq, Repr

/-- The fallback base64 string used when the logo call fails
(src/server.js line 543). -/
def fallbackLogo : String := "data:image/png;base64,iVBORw0KGgoAAAANSUhEUgAAAAUAAAAFCAYAAACNbyblAAAAHElEQ..."

/-- The fallback base64 string used when the hero call fails
(src/server.js line 559). -/
def fallbackHero : String := "data:image/png;base64,iVBORw0KGgoAAAANSUhEUgAAAAU..."

/-- The `try` block of `doWebsiteGeneration` (src/server.js lines 440-580):
the writes it performs in order, paired with `true` when it raised an
exception (missing inputs, chat-completion failure, or `user.save()`
failure — the image blocks catch their own errors and substitute the
fallback).  `.setProgress 45` and `.setProgress 55` are written before the
respective image call, inside the local `try`, so they occur even when the
image call fails. -/
def genTryBody (o : GenOutcome) : List JobEvent × Bool :=
  if o.inputsValid = false then ([], true)
  else
    match o.gptResult with
    | none => ([JobEvent.setProgress 10, JobEvent.setProgress 20], true)
    | some siteCode =>
        let navLogo := o.logoResult.getD fallbackLogo
        let heroBg := o.heroResult.getD fallbackHero
        ([JobEvent.setProgress 10, JobEvent.setProgress 20,
          JobEvent.setProgress 40, JobEvent.setProgress 45,
          JobEvent.setProgress 55, JobEvent.setProgress 60,
          JobEvent.setCode siteCode,
          JobEvent.setImages navLogo navLogo heroBg,
          JobEvent.setStatus JobStatus.done, JobEvent.setProgress 100],
         o.saveOk = false)

/-- `doWebsiteGeneration` (src/server.js lines 439-586).  The whole body is
wrapped in `try { ... } catch (error) { status = 'error'; progress = 100 }`
and the `catch` does not rethrow, so the async function's promise always
resolves: the result type is `Except` to make promise rejection
representable, and both branches return `Except.ok`. -/
def doWebsiteGeneration (o : GenOutcome) : Except Unit (List JobEvent) :=
  match genTryBody o with
  | (es, false) => Except.ok es
  | (es, true) =>
      Except.ok (es ++ [JobEvent.setStatus JobStatus.error, JobEvent.setProgress 100])

/-! ## Ledger debits -/

/-- The debit of `POST /start-generation` (src/server.js lines 92-96):
`User.findOneAndUpdate({walletAddress, credits: {$gte: 1}}, {$inc: {credits: -1}})`
— a single conditional update that decrements iff `credits ≥ 1`, else
matches nothing and leaves the account untouched (`none`). -/
def startDebit (b : ℚ) : Option ℚ :=
  if 1 ≤ b then some (b - 1) else none

/-- The debit of `POST /generate-section` (src/server.js lines 855-861 of the
live-coded variant; identically in depositService.js lines 773-778):
`if (user.credits < 0.25) return 400; user.credits -= 0.25; await user.save()`. -/
def sectionDebit (b : ℚ) : Option ℚ :=
  if b < 1/4 then none else some (b - 1/4)

/-! ## `POST /start-generation` with its background task -/

/-- Result of one `POST /start-generation` call observed after its
background task has finished: the HTTP response (`none` = the 400
insufficient-credits reply), the final account balance, the final
`progressMap` entry and how many compensating 1-credit refunds ran. -/
structure StartRunResult where
  accepted : Bool
  finalBalance : ℚ
  job : Option JobEntry
  refunds : ℕ
deriving DecidableEq, Repr

/-- `POST /start-generation` (src/server.js lines 84-131) followed by the
complete run of its background task.  The `.catch` handler on
`doWebsiteGeneration(...)` (lines 111-124) sets the entry to
error/100 and credits 1 back — it runs only if the background promise
rejects. -/
def startGenerationRun (balance : ℚ) (o : GenOutcome) : StartRunResult :=
  match startDebit balance with
  | none =>
      { accepted := false, finalBalance := balance, job := none, refunds := 0 }
  | some b =>
      match doWebsiteGeneration o with
      | Except.ok es =>
          { accepted := true, finalBalance := b,
            job := some (applyEvents initialJob es), refunds := 0 }
      | Except.error _ =>
          { accepted := true, finalBalance := b + 1,
            job := some (applyEvents initialJob
              [JobEvent.setStatus JobStatus.error, JobEvent.setProgress 100]),
            refunds := 1 }

/-- The writes the background task performed (its promise always resolves,
so the `ok` branch is the only one). -/
def genEvents (o : GenOutcome) : List JobEvent :=
  match doWebsiteGeneration o with
  | Except.ok es => es
  | Except.error _ => []

/-- The progress history a poller of `GET /progress` can observe for one
job: the initial 0 from the entry's creation followed by every
`setProgress` write of the pipeline, in order. -/
def progressTrace (o : GenOutcome) : List ℕ :=
  0 :: (genEvents o).filterMap (fun e => match e with
    | JobEvent.setProgress p => some p
    | _ => none)

/-- The status writes the pipeline performs for one job, in order. -/
def statusTrace (o : GenOutcome) : List JobStatus :=
  (genEvents o).filterMap (fun e => match e with
    | JobEvent.setStatus s => some s
    | _ => none)

/-- Whether a pipeline write mutates the job's state or its stage outputs
(code, images) — as opposed to a pure progress update. -/
def touchesStateOrOutputs : JobEvent → Bool
  | JobEvent.setStatus _ => true
  | JobEvent.setCode _ => true
  | JobEvent.setImages _ _ _ => true
  | JobEvent.setProgress _ => false

/-- The pipeline's writes to the job's state and stage outputs, in order. -/
def stateOutputWrites (o : GenOutcome) : List JobEvent :=
  (genEvents o).filter touchesStateOrOutputs

/-! ## `POST /generate-section` (section refresh, 0.25 credits) -/

/-- HTTP outcome of `POST /generate-section`. -/
inductive SectionResult where
  /-- 400, "Insufficient credits" — balance below 0.25 -/
  | insufficient : SectionResult
  /-- 500, "Internal server error." — the outer `catch` -/
  | serverError : SectionResult
  /-- 200 with the snippet and `newCredits` -/
  | ok : String → ℚ → SectionResult
deriving DecidableEq, Repr

/-- `POST /generate-section`: check `user.credits < 0.25`, else deduct 0.25
and save, then run the single chat-completion request (`none` = it threw,
reaching the outer `catch`, which returns 500 and performs no balance
change).  Returns the HTTP outcome and the final persisted balance. -/
def generateSection (balance : ℚ) (gptResult : Option String) :
    SectionResult × ℚ :=
  match sectionDebit balance with
  | none => (SectionResult.insufficient, balance)
  | some b =>
      match gptResult with
      | none => (SectionResult.serverError, b)
      | some snippet => (SectionResult.ok snippet b, b)

/-! ## Concurrent scans of one account

`fetchAndProcessUserDeposits` is `User.findOne` (load a snapshot of the
document), a pure in-memory pass over the feeds, and one `user.save()`.
The store is only touched at the load and at the save, so a concurrent pair
of scans is an interleaving of those atomic document operations.  On save,
the modified scalar path `credits` is written back with its in-memory
value and the `push`es on the `processedTransactions` array are appended
to the stored array (Mongo array atomics). -/

/-- The records a scan's in-memory document gained relative to the snapshot
it was loaded from: everything the loop `push`ed. -/
def pushedRecords (snapshot localDoc : UserState) : List ProcessedTx :=
  localDoc.processedTransactions.drop snapshot.processedTransactions.length

/-- `user.save()` of a document that was loaded as `snapshot` and mutated in
memory to `localDoc`, applied to the current store state `store`. -/
def saveUser (store snapshot localDoc : UserState) : UserState :=
  { walletAddress := store.walletAddress,
    credits := localDoc.credits,
    processedTransactions :=
      store.processedTransactions ++ pushedRecords snapshot localDoc }

/-- Two concurrent KASPER scans of the same account interleaved as
`read₁, read₂, write₁, write₂`: both snapshots are taken before either
save, each scan processes its feed on its own snapshot, then both save. -/
def twoConcurrentScans (store : UserState) (feed₁ feed₂ : List KasperTx) :
    UserState :=
  let snap₁ := store
  let snap₂ := store
  let local₁ := processUserKasperDeposits snap₁ feed₁
  let local₂ := processUserKasperDeposits snap₂ feed₂
  let store₁ := saveUser store snap₁ local₁
  saveUser store₁ snap₂ local₂

/-- Number of `processedTransactions` records carrying a given txid. -/
def countTx (u : UserState) (t : String) : ℕ :=
  u.processedTransactions.countP (fun r => r.txid == t)

/-- Qualification predicate of the KASPER client: `op` is `"transfer"`
(case-insensitively) and the destination is the scanned wallet. -/
def kasperQualifies (w : String) (tx : KasperTx) : Bool :=
  jsToLower tx.op == "transfer" && tx.toAddr == w

/-- The then-branch of `kasperStep`: apply the credit and append the
`ProcessedTx` record. -/
def creditKasper (u : UserState) (tx : KasperTx) : UserState :=
  let amt : ℚ := (tx.amt : ℚ) / SOMPI_PER_COIN
  let creditsToAdd := amt * CREDIT_CONVERSION_KASPER
  { u with
    credits := u.credits + creditsToAdd
    processedTransactions := u.processedTransactions ++
      [{ txid := tx.hashRev, coinType := CoinType.KASPER,
         amount := amt, creditsAdded := creditsToAdd }] }

/-- The then-branch of `kaspaStep`: apply the credit and append the
`ProcessedTx` record. -/
def creditKaspa (u : UserState) (tx : KaspaTx) : UserState :=
  let s := sumToUser u.walletAddress tx
  let creditsToAdd := s * CREDIT_CONVERSION_KAS
  { u with
    credits := u.credits + creditsToAdd
    processedTransactions := u.processedTransactions ++
      [{ txid := tx.hash, coinType := CoinType.KAS,
         amount := s, creditsAdded := creditsToAdd }] }

/-- Total of the `creditsAdded` fields of a batch of records: the balance
change a batch of applied deposits produces. -/
def sumCredits (l : List ProcessedTx) : ℚ :=
  (l.map ProcessedTx.creditsAdded).sum

/-! ## Concrete fixtures used in scenario theorems -/

/-- An account with no credits and no processed deposits. -/
def aliceEmpty : UserState :=
  { walletAddress := "kaspa:alice", credits := 0, processedTransactions := [] }

/-- A KASPER transfer of 800 raw (smallest-unit) units to alice. -/
def tx800raw : KasperTx :=
  { hashRev := "t1", amt := 800, op := "transfer", toAddr := "kaspa:alice" }

/-- A KASPER transfer of 800 whole KASPER (800 × 10^8 raw units) to alice. -/
def tx800coins : KasperTx :=
  { hashRev := "t1", amt := 80000000000, op := "transfer", toAddr := "kaspa:alice" }

/-- A KASPER feed reply holding one 800-KASPER transfer. -/
def feed1 : List KasperTx := [tx800coins]

/-- A KASPER feed reply delivering the same transaction twice. -/
def feedDup : List KasperTx := [tx800coins, tx800coins]

/-- An account that has already processed the native-chain (KAS) deposit
`"h1"`. -/
def uWithKasRecord : UserState :=
  { walletAddress := "kaspa:alice", credits := 0,
    processedTransactions :=
      [{ txid := "h1", coinType := CoinType.KAS, amount := 1, creditsAdded := 1 }] }

/-- A token-chain (KASPER) transfer whose transaction id coincides with the
recorded native-chain deposit `"h1"`. -/
def txSameId : KasperTx :=
  { hashRev := "h1", amt := 80000000000, op := "transfer", toAddr := "kaspa:alice" }

/-- A KAS transaction paying one whole KAS (10^8 sompi) to alice. -/
def kasTx1 : KaspaTx :=
  { hash := "k1",
    outputs := [{ script_public_key_address := "kaspa:alice", amount := 100000000 }] }

/-- A native-chain (KAS) feed reply delivering the same transaction twice
(duplicate delivery). -/
def kasFeedDup : List KaspaTx := [kasTx1, kasTx1]

/-- A native-chain (KAS) feed reply holding the transaction once more
(a later rescan). -/
def kasFeed1 : List KaspaTx := [kasTx1]

/-- A pipeline run whose primary chat-completion stage throws. -/
def oPrimaryFail : GenOutcome :=
  { inputsValid := true, gptResult := none, logoResult := none,
    heroResult := none, saveOk := true }

/-- A pipeline run where every stage succeeds but the final `user.save()`
throws. -/
def oSaveFail : GenOutcome :=
  { inputsValid := true, gptResult := some "site", logoResult := some "logo",
    heroResult := some "hero", saveOk := false }

/-! ## Helper lemmas -/

/-- Lowercasing the literal tag `"transfer"` is the identity. -/
theorem jsToLower_transfer : jsToLower "transfer" = "transfer" := by decide

/-- `kasperStep` is the conditional application of `creditKasper`, guarded by
the qualification predicate and the dedup check. -/
theorem kasperStep_eq (u : UserState) (tx : KasperTx) :
    kasperStep u tx =
      if kasperQualifies u.walletAddress tx && !(alreadyProcessed u tx.hashRev)
      then creditKasper u tx
      else u := rfl

/-- The step never changes the wallet address. -/
theorem kasperStep_wallet (u : UserState) (tx : KasperTx) :
    (kasperStep u tx).walletAddress = u.walletAddress := by
  rw [kasperStep_eq]; split <;> rfl

/-- Crediting a transaction makes its hash processed and keeps every
previously processed hash processed. -/
theorem alreadyProcessed_creditKasper (u : UserState) (tx : KasperTx) (t : String) :
    alreadyProcessed (creditKasper u tx) t =
      (alreadyProcessed u t || (tx.hashRev == t)) := by
  simp [alreadyProcessed, creditKasper]

/-- A scan leaves the user unchanged when the target hash is already
processed and every feed entry carries that hash. -/
theorem processed_stable (t : String) : ∀ (txs : List KasperTx) (u : UserState),
    alreadyProcessed u t = true → (∀ tx ∈ txs, tx.hashRev = t) →
    processUserKasperDeposits u txs = u := by
  intro txs
  induction txs with
  | nil => intro u _ _; rfl
  | cons tx rest ih =>
    intro u hu hall
    have ht : tx.hashRev = t := hall tx (List.mem_cons_self _ _)
    have hstep : kasperStep u tx = u := by
      rw [kasperStep_eq]
      have hp : alreadyProcessed u tx.hashRev = true := by rw [ht]; exact hu
      simp [hp]
    show processUserKasperDeposits (kasperStep u tx) rest = u
    rw [hstep]
    exact ih u hu (fun tx' h' => hall tx' (List.mem_cons_of_mem _ h'))

/-- On a feed whose entries all carry one fresh hash, the scan credits the
first qualifying entry and nothing else. -/
theorem processKasper_fresh (t : String) : ∀ (txs : List KasperTx) (u : UserState),
    alreadyProcessed u t = false → (∀ tx ∈ txs, tx.hashRev = t) →
    processUserKasperDeposits u txs =
      (match txs.find? (kasperQualifies u.walletAddress) with
       | none => u
       | some tx => creditKasper u tx) := by
  intro txs
  induction txs with
  | nil => intro u _ _; rfl
  | cons tx rest ih =>
    intro u hu hall
    have ht : tx.hashRev = t := hall tx (List.mem_cons_self _ _)
    have hrest : ∀ tx' ∈ rest, tx'.hashRev = t :=
      fun tx' h' => hall tx' (List.mem_cons_of_mem _ h')
    by_cases hq : kasperQualifies u.walletAddress tx = true
    · have hap : alreadyProcessed u tx.hashRev = false := by rw [ht]; exact hu
      have hstep : kasperStep u tx = creditKasper u tx := by
        rw [kasperStep_eq]; simp [hq, hap]
      have hcred : alreadyProcessed (creditKasper u tx) t = true := by
        rw [alreadyProcessed_creditKasper]; simp [ht]
      show processUserKasperDeposits (kasperStep u tx) rest = _
      rw [hstep, processed_stable t rest (creditKasper u tx) hcred hrest,
          List.find?_cons_of_pos _ hq]
    · have hqf : kasperQualifies u.walletAddress tx = false :=
        Bool.eq_false_iff.mpr hq
      have hstep : kasperStep u tx = u := by
        rw [kasperStep_eq]; simp [hqf]
      show processUserKasperDeposits (kasperStep u tx) rest = _
      rw [hstep, List.find?_cons_of_neg _ hq]
      exact ih u hu hrest

/-- An unprocessed hash has no record. -/
theorem countTx_of_not_processed (u : UserState) (t : String)
    (h : alreadyProcessed u t = false) : countTx u t = 0 := by
  simp only [alreadyProcessed, List.any_eq_false] at h
  simp only [countTx, List.countP_eq_zero]
  exact h

/-- Crediting a transaction adds exactly one record for its hash. -/
theorem countTx_creditKasper (u : UserState) (tx : KasperTx) (t : String)
    (h : tx.hashRev = t) : countTx (creditKasper u tx) t = countTx u t + 1 := by
  simp [countTx, creditKasper, List.countP_append, h]

/-- The background promise of `doWebsiteGeneration` always resolves:
the internal catch absorbs every failure. -/
theorem doWebsiteGeneration_resolves (o : GenOutcome) :
    ∃ es, doWebsiteGeneration o = Except.ok es := by
  unfold doWebsiteGeneration
  rcases h : genTryBody o with ⟨es, flag⟩
  cases flag <;> simp

/-- Sum of an empty batch. -/
theorem sumCredits_nil : sumCredits [] = 0 := rfl

/-- Sum of a batch split at its head. -/
theorem sumCredits_cons (r : ProcessedTx) (l : List ProcessedTx) :
    sumCredits (r :: l) = r.creditsAdded + sumCredits l := by
  simp [sumCredits]

/-- A record for a hash survives every token-chain step. -/
theorem kasperStep_already_mono (u : UserState) (tx : KasperTx) (t : String)
    (h : alreadyProcessed u t = true) :
    alreadyProcessed (kasperStep u tx) t = true := by
  rw [kasperStep_eq]; split
  · rw [alreadyProcessed_creditKasper]; simp [h]
  · exact h

/-- A token-chain step on a transaction with a different hash neither adds
nor removes records for the hash `t`. -/
theorem kasperStep_ne (u : UserState) (tx : KasperTx) (t : String)
    (hne : tx.hashRev ≠ t) :
    alreadyProcessed (kasperStep u tx) t = alreadyProcessed u t ∧
    countTx (kasperStep u tx) t = countTx u t := by
  rw [kasperStep_eq]; split
  · constructor
    · rw [alreadyProcessed_creditKasper]; simp [hne]
    · simp [countTx, creditKasper, List.countP_append, hne]
  · exact ⟨rfl, rfl⟩

/-- Once a hash is recorded, a token-chain step adds no further record
for it. -/
theorem countTx_kasperStep_processed (u : UserState) (tx : KasperTx) (t : String)
    (h : alreadyProcessed u t = true) :
    countTx (kasperStep u tx) t = countTx u t := by
  by_cases hne : tx.hashRev = t
  · have hap : alreadyProcessed u tx.hashRev = true := by rw [hne]; exact h
    rw [kasperStep_eq]; simp [hap]
  · exact (kasperStep_ne u tx t hne).2

/-- Once a hash is recorded, a whole token-chain scan over any feed adds no
further record for it. -/
theorem processKasper_count_stable (t : String) :
    ∀ (txs : List KasperTx) (u : UserState), alreadyProcessed u t = true →
    countTx (processUserKasperDeposits u txs) t = countTx u t := by
  intro txs
  induction txs with
  | nil => intro u _; rfl
  | cons tx rest ih =>
    intro u h
    show countTx (processUserKasperDeposits (kasperStep u tx) rest) t = countTx u t
    rw [ih (kasperStep u tx) (kasperStep_already_mono u tx t h),
        countTx_kasperStep_processed u tx t h]

/-- A positive record count means the hash is recorded. -/
theorem alreadyProcessed_of_countTx_pos (u : UserState) (t : String)
    (h : 0 < countTx u t) : alreadyProcessed u t = true := by
  obtain ⟨r, hr, hp⟩ := List.countP_pos_iff.mp h
  exact List.any_eq_true.mpr ⟨r, hr, hp⟩

/-- On any feed, a token-chain scan records a fresh hash `t` exactly once
when some entry with hash `t` qualifies, and not at all otherwise. -/
theorem processKasper_count_fresh (t : String) :
    ∀ (txs : List KasperTx) (u : UserState), alreadyProcessed u t = false →
    countTx (processUserKasperDeposits u txs) t =
      (if ∃ tx ∈ txs, tx.hashRev = t ∧ kasperQualifies u.walletAddress tx = true
       then 1 else 0) := by
  intro txs
  induction txs with
  | nil =>
    intro u h0
    show countTx u t = _
    rw [countTx_of_not_processed u t h0]; simp
  | cons tx rest ih =>
    intro u h0
    show countTx (processUserKasperDeposits (kasperStep u tx) rest) t = _
    by_cases hht : tx.hashRev = t
    · by_cases hq : kasperQualifies u.walletAddress tx = true
      · have hap : alreadyProcessed u tx.hashRev = false := by rw [hht]; exact h0
        have hstep : kasperStep u tx = creditKasper u tx := by
          rw [kasperStep_eq]; simp [hq, hap]
        have hcred : alreadyProcessed (creditKasper u tx) t = true := by
          rw [alreadyProcessed_creditKasper]; simp [hht]
        rw [hstep, processKasper_count_stable t rest _ hcred,
            countTx_creditKasper u tx t hht, countTx_of_not_processed u t h0,
            if_pos ⟨tx, List.mem_cons_self _ _, hht, hq⟩]
      · have hqf : kasperQualifies u.walletAddress tx = false :=
          Bool.eq_false_iff.mpr hq
        have hstep : kasperStep u tx = u := by rw [kasperStep_eq]; simp [hqf]
        rw [hstep, ih u h0]
        have hiff : (∃ tx' ∈ rest, tx'.hashRev = t ∧
              kasperQualifies u.walletAddress tx' = true) ↔
            (∃ tx' ∈ tx :: rest, tx'.hashRev = t ∧
              kasperQualifies u.walletAddress tx' = true) := by
          constructor
          · rintro ⟨tx', hmem, h1, h2⟩
            exact ⟨tx', List.mem_cons_of_mem _ hmem, h1, h2⟩
          · rintro ⟨tx', hmem, h1, h2⟩
            rcases List.mem_cons.mp hmem with rfl | hmem'
            · exact absurd h2 hq
            · exact ⟨tx', hmem', h1, h2⟩
        rw [if_congr hiff rfl rfl]
    · obtain ⟨hap, hcnt⟩ := kasperStep_ne u tx t hht
      have h0' : alreadyProcessed (kasperStep u tx) t = false := by rw [hap]; exact h0
      rw [ih (kasperStep u tx) h0']
      simp only [kasperStep_wallet]
      have hiff : (∃ tx' ∈ rest, tx'.hashRev = t ∧
            kasperQualifies u.walletAddress tx' = true) ↔
          (∃ tx' ∈ tx :: rest, tx'.hashRev = t ∧
            kasperQualifies u.walletAddress tx' = true) := by
        constructor
        · rintro ⟨tx', hmem, h1, h2⟩
          exact ⟨tx', List.mem_cons_of_mem _ hmem, h1, h2⟩
        · rintro ⟨tx', hmem, h1, h2⟩
          rcases List.mem_cons.mp hmem with rfl | hmem'
          · exact absurd h1 hht
          · exact ⟨tx', hmem', h1, h2⟩
      rw [if_congr hiff rfl rfl]

/-- A token-chain scan only appends records, and its balance change is the
total of the appended records' credited amounts. -/
theorem processKasper_conservation :
    ∀ (txs : List KasperTx) (u : UserState), ∃ newRecs : List ProcessedTx,
      (processUserKasperDeposits u txs).processedTransactions =
        u.processedTransactions ++ newRecs ∧
      (processUserKasperDeposits u txs).credits = u.credits + sumCredits newRecs := by
  intro txs
  induction txs with
  | nil =>
    intro u
    exact ⟨[], by simp [processUserKasperDeposits],
      by simp [processUserKasperDeposits, sumCredits_nil]⟩
  | cons tx rest ih =>
    intro u
    obtain ⟨new', hpt, hc⟩ := ih (kasperStep u tx)
    by_cases hg : (kasperQualifies u.walletAddress tx
        && !(alreadyProcessed u tx.hashRev)) = true
    · have hstep : kasperStep u tx = creditKasper u tx := by
        rw [kasperStep_eq, if_pos hg]
      rw [hstep] at hpt hc
      refine ⟨{ txid := tx.hashRev, coinType := CoinType.KASPER,
                amount := (tx.amt : ℚ) / SOMPI_PER_COIN,
                creditsAdded :=
                  ((tx.amt : ℚ) / SOMPI_PER_COIN) * CREDIT_CONVERSION_KASPER }
              :: new', ?_, ?_⟩
      · show (processUserKasperDeposits (kasperStep u tx) rest).processedTransactions = _
        rw [hstep, hpt]
        show (u.processedTransactions ++ [_]) ++ new' = _
        rw [List.append_assoc]
        rfl
      · show (processUserKasperDeposits (kasperStep u tx) rest).credits = _
        rw [hstep, hc, sumCredits_cons]
        show u.credits + _ + sumCredits new' = _
        rw [add_assoc]
    · have hstep : kasperStep u tx = u := by rw [kasperStep_eq, if_neg hg]
      rw [hstep] at hpt hc
      refine ⟨new', ?_, ?_⟩
      · show (processUserKasperDeposits (kasperStep u tx) rest).processedTransactions = _
        rw [hstep]; exact hpt
      · show (processUserKasperDeposits (kasperStep u tx) rest).credits = _
        rw [hstep]; exact hc

/-- `kaspaStep` is the conditional application of `creditKaspa`, guarded by
a positive paid sum and the dedup check. -/
theorem kaspaStep_eq (u : UserState) (tx : KaspaTx) :
    kaspaStep u tx =
      if 0 < sumToUser u.walletAddress tx ∧ ¬ (alreadyProcessed u tx.hash = true)
      then creditKaspa u tx
      else u := rfl

/-- The native-chain step never changes the wallet address. -/
theorem kaspaStep_wallet (u : UserState) (tx : KaspaTx) :
    (kaspaStep u tx).walletAddress = u.walletAddress := by
  rw [kaspaStep_eq]; split <;> rfl

/-- Crediting a native-chain transaction makes its hash processed and keeps
every previously processed hash processed. -/
theorem alreadyProcessed_creditKaspa (u : UserState) (tx : KaspaTx) (t : String) :
    alreadyProcessed (creditKaspa u tx) t =
      (alreadyProcessed u t || (tx.hash == t)) := by
  simp [alreadyProcessed, creditKaspa]

/-- Crediting a native-chain transaction adds exactly one record for its
hash. -/
theorem countTx_creditKaspa (u : UserState) (tx : KaspaTx) (t : String)
    (h : tx.hash = t) : countTx (creditKaspa u tx) t = countTx u t + 1 := by
  simp [countTx, creditKaspa, List.countP_append, h]

/-- A record for a hash survives every native-chain step. -/
theorem kaspaStep_already_mono (u : UserState) (tx : KaspaTx) (t : String)
    (h : alreadyProcessed u t = true) :
    alreadyProcessed (kaspaStep u tx) t = true := by
  rw [kaspaStep_eq]; split
  · rw [alreadyProcessed_creditKaspa]; simp [h]
  · exact h

/-- A native-chain step on a transaction with a different hash neither adds
nor removes records for the hash `t`. -/
theorem kaspaStep_ne (u : UserState) (tx : KaspaTx) (t : String)
    (hne : tx.hash ≠ t) :
    alreadyProcessed (kaspaStep u tx) t = alreadyProcessed u t ∧
    countTx (kaspaStep u tx) t = countTx u t := by
  rw [kaspaStep_eq]; split
  · constructor
    · rw [alreadyProcessed_creditKaspa]; simp [hne]
    · simp [countTx, creditKaspa, List.countP_append, hne]
  · exact ⟨rfl, rfl⟩

/-- Once a hash is recorded, a native-chain step adds no further record
for it. -/
theorem countTx_kaspaStep_processed (u : UserState) (tx : KaspaTx) (t : String)
    (h : alreadyProcessed u t = true) :
    countTx (kaspaStep u tx) t = countTx u t := by
  by_cases hne : tx.hash = t
  · have hap : alreadyProcessed u tx.hash = true := by rw [hne]; exact h
    rw [kaspaStep_eq, if_neg (fun hcond => hcond.2 hap)]
  · exact (kaspaStep_ne u tx t hne).2

/-- Once a hash is recorded, a whole native-chain scan over any feed adds
no further record for it. -/
theorem processKaspa_count_stable (t : String) :
    ∀ (txs : List KaspaTx) (u : UserState), alreadyProcessed u t = true →
    countTx (processUserKaspaDeposits u txs) t = countTx u t := by
  intro txs
  induction txs with
  | nil => intro u _; rfl
  | cons tx rest ih =>
    intro u h
    show countTx (processUserKaspaDeposits (kaspaStep u tx) rest) t = countTx u t
    rw [ih (kaspaStep u tx) (kaspaStep_already_mono u tx t h),
        countTx_kaspaStep_processed u tx t h]

/-- On any feed, a native-chain scan records a fresh hash `t` exactly once
when some entry with hash `t` pays the scanned address, and not at all
otherwise. -/
theorem processKaspa_count_fresh (t : String) :
    ∀ (txs : List KaspaTx) (u : UserState), alreadyProcessed u t = false →
    countTx (processUserKaspaDeposits u txs) t =
      (if ∃ tx ∈ txs, tx.hash = t ∧ 0 < sumToUser u.walletAddress tx
       then 1 else 0) := by
  intro txs
  induction txs with
  | nil =>
    intro u h0
    show countTx u t = _
    rw [countTx_of_not_processed u t h0]; simp
  | cons tx rest ih =>
    intro u h0
    show countTx (processUserKaspaDeposits (kaspaStep u tx) rest) t = _
    by_cases hht : tx.hash = t
    · by_cases hq : 0 < sumToUser u.walletAddress tx
      · have hap : ¬ (alreadyProcessed u tx.hash = true) := by
          rw [hht, h0]; exact Bool.false_ne_true
        have hstep : kaspaStep u tx = creditKaspa u tx := by
          rw [kaspaStep_eq, if_pos ⟨hq, hap⟩]
        have hcred : alreadyProcessed (creditKaspa u tx) t = true := by
          rw [alreadyProcessed_creditKaspa]; simp [hht]
        rw [hstep, processKaspa_count_stable t rest _ hcred,
            countTx_creditKaspa u tx t hht, countTx_of_not_processed u t h0,
            if_pos ⟨tx, List.mem_cons_self _ _, hht, hq⟩]
      · have hstep : kaspaStep u tx = u := by
          rw [kaspaStep_eq, if_neg (fun hcond => hq hcond.1)]
        rw [hstep, ih u h0]
        have hiff : (∃ tx' ∈ rest, tx'.hash = t ∧
              0 < sumToUser u.walletAddress tx') ↔
            (∃ tx' ∈ tx :: rest, tx'.hash = t ∧
              0 < sumToUser u.walletAddress tx') := by
          constructor
          · rintro ⟨tx', hmem, h1, h2⟩
            exact ⟨tx', List.mem_cons_of_mem _ hmem, h1, h2⟩
          · rintro ⟨tx', hmem, h1, h2⟩
            rcases List.mem_cons.mp hmem with rfl | hmem'
            · exact absurd h2 hq
            · exact ⟨tx', hmem', h1, h2⟩
        rw [if_congr hiff rfl rfl]
    · obtain ⟨hap, hcnt⟩ := kaspaStep_ne u tx t hht
      have h0' : alreadyProcessed (kaspaStep u tx) t = false := by rw [hap]; exact h0
      rw [ih (kaspaStep u tx) h0']
      simp only [kaspaStep_wallet]
      have hiff : (∃ tx' ∈ rest, tx'.hash = t ∧
            0 < sumToUser u.walletAddress tx') ↔
          (∃ tx' ∈ tx :: rest, tx'.hash = t ∧
            0 < sumToUser u.walletAddress tx') := by
        constructor
        · rintro ⟨tx', hmem, h1, h2⟩
          exact ⟨tx', List.mem_cons_of_mem _ hmem, h1, h2⟩
        · rintro ⟨tx', hmem, h1, h2⟩
          rcases List.mem_cons.mp hmem with rfl | hmem'
          · exact absurd h1 hht
          · exact ⟨tx', hmem', h1, h2⟩
      rw [if_congr hiff rfl rfl]

/-- A native-chain scan only appends records, and its balance change is the
total of the appended records' credited amounts. -/
theorem processKaspa_conservation :
    ∀ (txs : List KaspaTx) (u : UserState), ∃ newRecs : List ProcessedTx,
      (processUserKaspaDeposits u txs).processedTransactions =
        u.processedTransactions ++ newRecs ∧
      (processUserKaspaDeposits u txs).credits = u.credits + sumCredits newRecs := by
  intro txs
  induction txs with
  | nil =>
    intro u
    exact ⟨[], by simp [processUserKaspaDeposits],
      by simp [processUserKaspaDeposits, sumCredits_nil]⟩
  | cons tx rest ih =>
    intro u
    obtain ⟨new', hpt, hc⟩ := ih (kaspaStep u tx)
    by_cases hg : 0 < sumToUser u.walletAddress tx ∧
        ¬ (alreadyProcessed u tx.hash = true)
    · have hstep : kaspaStep u tx = creditKaspa u tx := by
        rw [kaspaStep_eq, if_pos hg]
      rw [hstep] at hpt hc
      refine ⟨{ txid := tx.hash, coinType := CoinType.KAS,
                amount := sumToUser u.walletAddress tx,
                creditsAdded := sumToUser u.walletAddress tx * CREDIT_CONVERSION_KAS }
              :: new', ?_, ?_⟩
      · show (processUserKaspaDeposits (kaspaStep u tx) rest).processedTransactions = _
        rw [hstep, hpt]
        show (u.processedTransactions ++ [_]) ++ new' = _
        rw [List.append_assoc]
        rfl
      · show (processUserKaspaDeposits (kaspaStep u tx) rest).credits = _
        rw [hstep, hc, sumCredits_cons]
        show u.credits + _ + sumCredits new' = _
        rw [add_assoc]
    · have hstep : kaspaStep u tx = u := by rw [kaspaStep_eq, if_neg hg]
      rw [hstep] at hpt hc
      refine ⟨new', ?_, ?_⟩
      · show (processUserKaspaDeposits (kaspaStep u tx) rest).processedTransactions = _
        rw [hstep]; exact hpt
      · show (processUserKaspaDeposits (kaspaStep u tx) rest).credits = _
        rw [hstep]; exact hc

/-! ## Claim theorems -/

/-- C1: the compensating refund never runs.  The refund handler of
`POST /start-generation` is attached with `.catch` to the background
promise, but `doWebsiteGeneration` traps every failure internally and
resolves, so for every balance and every pipeline outcome zero refunds are
applied; in the spec's own scenario (balance 1, primary content stage
throws) the job ends in ERROR with progress 100 while the balance stays at
0 instead of being restored to 1. -/
theorem c1_error_refund_never_applied :
    (∀ (b : ℚ) (o : GenOutcome), (startGenerationRun b o).refunds = 0) ∧
    startGenerationRun 1 oPrimaryFail =
      { accepted := true, finalBalance := 0,
        job := some { status := JobStatus.error, progress := 100, code := none,
                      navLogo := none, footerImg := none, heroBg := none },
        refunds := 0 } ∧
    (0 : ℚ) ≠ 1 := by
  refine ⟨?_, ?_, by norm_num⟩
  · intro b o
    obtain ⟨es, hes⟩ := doWebsiteGeneration_resolves o
    unfold startGenerationRun
    cases hd : startDebit b <;> simp [hd, hes]
  · norm_num [startGenerationRun, startDebit, oPrimaryFail, doWebsiteGeneration,
      genTryBody, applyEvents, applyEvent, initialJob]

/-- C2: the dedup guard is not an atomic check-and-insert.  Two scans of
the same account interleaved as read-read-write-write both observe the
deposit `t1` as unprocessed (the check runs in memory on a per-call
snapshot), both apply it, and the final store holds two ProcessedDeposit
records for the one transaction id; the balance gains one credit only
because the scalar write-back is last-writer-wins. -/
theorem c2_concurrent_scans_not_atomic :
    alreadyProcessed aliceEmpty tx800coins.hashRev = false ∧
    countTx (twoConcurrentScans aliceEmpty feed1 feed1) "t1" = 2 ∧
    (twoConcurrentScans aliceEmpty feed1 feed1).credits =
      aliceEmpty.credits + 1 := by
  refine ⟨by decide, ?_, ?_⟩
  · simp [countTx, twoConcurrentScans, saveUser, pushedRecords,
      processUserKasperDeposits, kasperStep, aliceEmpty, feed1, tx800coins,
      alreadyProcessed, jsToLower_transfer]
  · norm_num [twoConcurrentScans, saveUser, pushedRecords,
      processUserKasperDeposits, kasperStep, aliceEmpty, feed1, tx800coins,
      alreadyProcessed, SOMPI_PER_COIN, CREDIT_CONVERSION_KASPER,
      jsToLower_transfer]

/-- C3: both debits are conditional and preserve non-negativity: the
1-credit debit of `POST /start-generation` succeeds (decrementing by 1)
iff the balance is at least 1, and the 0.25-credit debit of
`POST /generate-section` succeeds (decrementing by 0.25) iff the balance is
at least 0.25; on failure the request is rejected with the insufficient
message and the balance untouched, so a non-negative balance stays
non-negative; in particular a section refresh against balance 0.2 is
rejected with the balance still 0.2. -/
theorem c3_conditional_debit_no_overdraft (b : ℚ) (hb : 0 ≤ b) :
    ((1 ≤ b → startDebit b = some (b - 1) ∧ 0 ≤ b - 1) ∧
     (b < 1 → startDebit b = none ∧
        ∀ o, startGenerationRun b o =
          { accepted := false, finalBalance := b, job := none, refunds := 0 })) ∧
    ((1/4 ≤ b → sectionDebit b = some (b - 1/4) ∧ 0 ≤ b - 1/4) ∧
     (b < 1/4 → sectionDebit b = none ∧
        ∀ g, generateSection b g = (SectionResult.insufficient, b))) ∧
    (∀ g, generateSection (1/5) g = (SectionResult.insufficient, 1/5)) := by
  refine ⟨⟨?_, ?_⟩, ⟨?_, ?_⟩, ?_⟩
  · intro h
    refine ⟨by simp [startDebit, h], by linarith⟩
  · intro h
    have hn : startDebit b = none := by simp [startDebit, not_le.mpr h]
    exact ⟨hn, fun o => by simp [startGenerationRun, hn]⟩
  · intro h
    refine ⟨?_, by linarith⟩
    unfold sectionDebit
    rw [if_neg (not_lt.mpr h)]
  · intro h
    have hn : sectionDebit b = none := by
      unfold sectionDebit; rw [if_pos h]
    refine ⟨hn, fun g => ?_⟩
    unfold generateSection
    rw [hn]
  · intro g
    have hn : sectionDebit (1/5 : ℚ) = none := by
      unfold sectionDebit
      rw [if_pos (by norm_num : (1/5 : ℚ) < 1/4)]
    unfold generateSection
    rw [hn]

/-- C3 witness: the theorem applied at the scenario balance 0.2. -/
theorem c3_witness :
    (0 : ℚ) ≤ 1/5 ∧
    generateSection (1/5) none = (SectionResult.insufficient, 1/5) :=
  ⟨by norm_num, (c3_conditional_debit_no_overdraft (1/5) (by norm_num)).2.2 none⟩

/-- C4 counterexample: with balance 1, the 0.25 debit succeeds and the
content request fails; the route answers with the 500 error but the saved
balance is 0.75, not the claimed unchanged 1 — no compensating refund is
applied. -/
theorem c4_counterexample :
    generateSection 1 none = (SectionResult.serverError, 3/4) ∧
    (3/4 : ℚ) ≠ 1 := by
  constructor
  · norm_num [generateSection, sectionDebit]
  · norm_num

/-- C4 as amended: when the 0.25 debit succeeds and the single-stage
content request then fails, the failure propagates to the caller as the
500 error, but no compensating refund is applied: the account balance
remains debited by 0.25. -/
theorem c4_amended_no_refund (b : ℚ) (hb : 1/4 ≤ b) :
    generateSection b none = (SectionResult.serverError, b - 1/4) ∧
    b - 1/4 ≠ b := by
  constructor
  · unfold generateSection sectionDebit
    rw [if_neg (not_lt.mpr hb)]
  · intro h
    have : (1/4 : ℚ) = 0 := by linarith [sub_eq_iff_eq_add.mp h]
    norm_num at this

/-- C4 witness: the amended theorem applied at balance 1. -/
theorem c4_amended_witness :
    (1/4 : ℚ) ≤ 1 ∧
    (generateSection 1 none = (SectionResult.serverError, 1 - 1/4) ∧
     (1 : ℚ) - 1/4 ≠ 1) :=
  ⟨by norm_num, c4_amended_no_refund 1 (by norm_num)⟩

/-- C5: sequential idempotency per transaction id, for both chain loops
and arbitrary feeds.  For each client (token `processUserKasperDeposits`,
native `processUserKaspaDeposits`): a scan starting without a record for
id `t` ends with exactly one ProcessedDeposit for `t` when some feed entry
with id `t` qualifies — even if the feed delivers `t` several times — and
with none otherwise; once `t` is recorded, any later scan adds no further
record for it, so after a crediting scan followed by any rescan exactly one
record for `t` exists; and each scan only appends records, its balance
change being exactly the total of the appended records' credited amounts,
with each id contributing its counted number of records — hence a
duplicated `t` increases the balance by exactly one credited amount. -/
theorem c5_reconciliation_idempotent :
    (∀ (u : UserState) (t : String) (txs : List KasperTx),
      alreadyProcessed u t = false →
      countTx (processUserKasperDeposits u txs) t =
        (if ∃ tx ∈ txs, tx.hashRev = t ∧
            kasperQualifies u.walletAddress tx = true then 1 else 0)) ∧
    (∀ (u : UserState) (t : String) (txs : List KasperTx),
      alreadyProcessed u t = true →
      countTx (processUserKasperDeposits u txs) t = countTx u t) ∧
    (∀ (u : UserState) (txs : List KasperTx), ∃ newRecs : List ProcessedTx,
      (processUserKasperDeposits u txs).processedTransactions =
        u.processedTransactions ++ newRecs ∧
      (processUserKasperDeposits u txs).credits =
        u.credits + sumCredits newRecs ∧
      ∀ s : String, countTx (processUserKasperDeposits u txs) s =
        countTx u s + newRecs.countP (fun r => r.txid == s)) ∧
    (∀ (u : UserState) (t : String) (txs txs2 : List KasperTx),
      alreadyProcessed u t = false →
      (∃ tx ∈ txs, tx.hashRev = t ∧ kasperQualifies u.walletAddress tx = true) →
      countTx (processUserKasperDeposits
        (processUserKasperDeposits u txs) txs2) t = 1) ∧
    (∀ (u : UserState) (t : String) (txs : List KaspaTx),
      alreadyProcessed u t = false →
      countTx (processUserKaspaDeposits u txs) t =
        (if ∃ tx ∈ txs, tx.hash = t ∧ 0 < sumToUser u.walletAddress tx
         then 1 else 0)) ∧
    (∀ (u : UserState) (t : String) (txs : List KaspaTx),
      alreadyProcessed u t = true →
      countTx (processUserKaspaDeposits u txs) t = countTx u t) ∧
    (∀ (u : UserState) (txs : List KaspaTx), ∃ newRecs : List ProcessedTx,
      (processUserKaspaDeposits u txs).processedTransactions =
        u.processedTransactions ++ newRecs ∧
      (processUserKaspaDeposits u txs).credits =
        u.credits + sumCredits newRecs ∧
      ∀ s : String, countTx (processUserKaspaDeposits u txs) s =
        countTx u s + newRecs.countP (fun r => r.txid == s)) ∧
    (∀ (u : UserState) (t : String) (txs txs2 : List KaspaTx),
      alreadyProcessed u t = false →
      (∃ tx ∈ txs, tx.hash = t ∧ 0 < sumToUser u.walletAddress tx) →
      countTx (processUserKaspaDeposits
        (processUserKaspaDeposits u txs) txs2) t = 1) := by
  refine ⟨?_, ?_, ?_, ?_, ?_, ?_, ?_, ?_⟩
  · intro u t txs h0
    exact processKasper_count_fresh t txs u h0
  · intro u t txs h
    exact processKasper_count_stable t txs u h
  · intro u txs
    obtain ⟨n, h1, h2⟩ := processKasper_conservation txs u
    exact ⟨n, h1, h2, fun s => by simp [countTx, h1, List.countP_append]⟩
  · intro u t txs txs2 h0 hex
    have h1 := processKasper_count_fresh t txs u h0
    rw [if_pos hex] at h1
    have h2 : alreadyProcessed (processUserKasperDeposits u txs) t = true :=
      alreadyProcessed_of_countTx_pos _ _ (by rw [h1]; exact Nat.one_pos)
    rw [processKasper_count_stable t txs2 _ h2, h1]
  · intro u t txs h0
    exact processKaspa_count_fresh t txs u h0
  · intro u t txs h
    exact processKaspa_count_stable t txs u h
  · intro u txs
    obtain ⟨n, h1, h2⟩ := processKaspa_conservation txs u
    exact ⟨n, h1, h2, fun s => by simp [countTx, h1, List.countP_append]⟩
  · intro u t txs txs2 h0 hex
    have h1 := processKaspa_count_fresh t txs u h0
    rw [if_pos hex] at h1
    have h2 : alreadyProcessed (processUserKaspaDeposits u txs) t = true :=
      alreadyProcessed_of_countTx_pos _ _ (by rw [h1]; exact Nat.one_pos)
    rw [processKaspa_count_stable t txs2 _ h2, h1]

/-- C5 witness: the theorem applied to the native-chain feed that delivers
the same 1-KAS transaction twice followed by a rescan (the cited
duplicate-delivery scenario), and to the token-chain feed that delivers
the same 800-KASPER transfer twice followed by a rescan. -/
theorem c5_witness :
    alreadyProcessed aliceEmpty "k1" = false ∧
    countTx (processUserKaspaDeposits
      (processUserKaspaDeposits aliceEmpty kasFeedDup) kasFeed1) "k1" = 1 ∧
    alreadyProcessed aliceEmpty "t1" = false ∧
    countTx (processUserKasperDeposits
      (processUserKasperDeposits aliceEmpty feedDup) feed1) "t1" = 1 :=
  ⟨by decide,
   c5_reconciliation_idempotent.2.2.2.2.2.2.2 aliceEmpty "k1" kasFeedDup
     kasFeed1 (by decide)
     ⟨kasTx1, by decide, rfl,
      by norm_num [sumToUser, kasTx1, aliceEmpty, SOMPI_PER_COIN]⟩,
   by decide,
   c5_reconciliation_idempotent.2.2.2.1 aliceEmpty "t1" feedDup feed1
     (by decide) ⟨tx800coins, by decide, rfl, by decide⟩⟩

/-- C6 counterexample: a KASPER deposit of 800 raw units credits
1/10^8 of a credit, not the 1 credit the scenario claims. -/
theorem c6_counterexample :
    (kasperStep aliceEmpty tx800raw).credits = 1/100000000 ∧
    ((1 : ℚ)/100000000) ≠ 1 := by
  constructor
  · norm_num [kasperStep, aliceEmpty, tx800raw, alreadyProcessed,
      SOMPI_PER_COIN, CREDIT_CONVERSION_KASPER, jsToLower_transfer]
  · norm_num

/-- C6 as amended: a qualifying fresh deposit is credited at
(raw amount / 10^8) × conversion rate — 1/800 for the token, 1 for the
native coin — so one whole credit needs 800 whole KASPER, i.e.
800 × 10^8 raw units, while 800 raw units credit only 10^-8. -/
theorem c6_amended_conversion :
    (∀ (u : UserState) (tx : KasperTx),
      kasperQualifies u.walletAddress tx = true →
      alreadyProcessed u tx.hashRev = false →
      (kasperStep u tx).credits =
        u.credits + ((tx.amt : ℚ) / SOMPI_PER_COIN) * CREDIT_CONVERSION_KASPER ∧
      (tx.amt = 80000000000 → (kasperStep u tx).credits = u.credits + 1)) ∧
    (∀ (u : UserState) (tx : KaspaTx),
      alreadyProcessed u tx.hash = false →
      0 < sumToUser u.walletAddress tx →
      (kaspaStep u tx).credits =
        u.credits + sumToUser u.walletAddress tx * CREDIT_CONVERSION_KAS) := by
  constructor
  · intro u tx hq hap
    have hstep : kasperStep u tx = creditKasper u tx := by
      rw [kasperStep_eq]; simp [hq, hap]
    rw [hstep]
    refine ⟨rfl, fun hamt => ?_⟩
    show u.credits + ((tx.amt : ℚ) / SOMPI_PER_COIN) * CREDIT_CONVERSION_KASPER
        = u.credits + 1
    rw [hamt]
    norm_num [SOMPI_PER_COIN, CREDIT_CONVERSION_KASPER]
  · intro u tx hap hs
    simp only [kaspaStep]
    rw [if_pos ⟨hs, by simp [hap]⟩]

/-- C6 witness: the amended theorem at a deposit of 800 whole KASPER
(800 × 10^8 raw units), which credits exactly 1, and at a deposit of
1 whole KAS. -/
theorem c6_amended_witness :
    (kasperQualifies aliceEmpty.walletAddress tx800coins = true ∧
     alreadyProcessed aliceEmpty tx800coins.hashRev = false ∧
     (kasperStep aliceEmpty tx800coins).credits = aliceEmpty.credits + 1) ∧
    (alreadyProcessed aliceEmpty kasTx1.hash = false ∧
     (kaspaStep aliceEmpty kasTx1).credits =
       aliceEmpty.credits +
         sumToUser aliceEmpty.walletAddress kasTx1 * CREDIT_CONVERSION_KAS) :=
  ⟨⟨by decide, by decide,
    (c6_amended_conversion.1 aliceEmpty tx800coins (by decide) (by decide)).2 rfl⟩,
   ⟨by decide,
    c6_amended_conversion.2 aliceEmpty kasTx1 (by decide)
      (by norm_num [sumToUser, kasTx1, aliceEmpty, SOMPI_PER_COIN])⟩⟩

/-- C7 counterexample: when every stage succeeds but the post-completion
artifact save throws, the pipeline writes status DONE and then overwrites
it with ERROR — a job that reached DONE transitions to ERROR. -/
theorem c7_counterexample :
    statusTrace oSaveFail = [JobStatus.done, JobStatus.error] ∧
    JobStatus.done ≠ JobStatus.error := by
  constructor
  · simp [statusTrace, genEvents, doWebsiteGeneration, genTryBody, oSaveFail]
  · decide

/-- C7 as amended: the pipeline's writes to job state and stage outputs
always take one of three shapes — a single ERROR write (early failure),
code and images then DONE (full success), or code and images then DONE
followed by one ERROR write when the post-completion save fails.  Thus
ERROR is final, stage outputs are never mutated after a terminal state,
and DONE is final except for the save-failure transition to ERROR. -/
theorem c7_amended_terminal_writes (o : GenOutcome) :
    stateOutputWrites o = [JobEvent.setStatus JobStatus.error] ∨
    (o.saveOk = true ∧ ∃ c nav foot hero,
      stateOutputWrites o =
        [JobEvent.setCode c, JobEvent.setImages nav foot hero,
         JobEvent.setStatus JobStatus.done]) ∨
    (o.saveOk = false ∧ ∃ c nav foot hero,
      stateOutputWrites o =
        [JobEvent.setCode c, JobEvent.setImages nav foot hero,
         JobEvent.setStatus JobStatus.done,
         JobEvent.setStatus JobStatus.error]) := by
  rcases o with ⟨iv, g, l, h, s⟩
  cases iv
  · left
    simp [stateOutputWrites, genEvents, doWebsiteGeneration, genTryBody,
      touchesStateOrOutputs]
  · cases g with
    | none =>
        left
        simp [stateOutputWrites, genEvents, doWebsiteGeneration, genTryBody,
          touchesStateOrOutputs]
    | some c =>
        cases s
        · right; right
          refine ⟨rfl, c, l.getD fallbackLogo, l.getD fallbackLogo,
            h.getD fallbackHero, ?_⟩
          simp [stateOutputWrites, genEvents, doWebsiteGeneration, genTryBody,
            touchesStateOrOutputs]
        · right; left
          refine ⟨rfl, c, l.getD fallbackLogo, l.getD fallbackLogo,
            h.getD fallbackHero, ?_⟩
          simp [stateOutputWrites, genEvents, doWebsiteGeneration, genTryBody,
            touchesStateOrOutputs]

/-- C8: for every pipeline outcome the observable progress history —
0 at creation followed by the pipeline's progress writes in order — is
non-decreasing and ends at 100, in the DONE outcome as well as in every
ERROR outcome. -/
theorem c8_monotonic_progress (o : GenOutcome) :
    List.Chain' (· ≤ ·) (progressTrace o) ∧
    (progressTrace o).getLast? = some 100 := by
  rcases o with ⟨iv, g, l, h, s⟩
  cases iv
  · have ht : progressTrace ⟨false, g, l, h, s⟩ = [0, 100] := by
      simp [progressTrace, genEvents, doWebsiteGeneration, genTryBody]
    rw [ht]; exact ⟨by norm_num [List.chain'_cons], by decide⟩
  · cases g with
    | none =>
        have ht : progressTrace ⟨true, none, l, h, s⟩ = [0, 10, 20, 100] := by
          simp [progressTrace, genEvents, doWebsiteGeneration, genTryBody]
        rw [ht]; exact ⟨by norm_num [List.chain'_cons], by decide⟩
    | some c =>
        cases s
        · have ht : progressTrace ⟨true, some c, l, h, false⟩ =
              [0, 10, 20, 40, 45, 55, 60, 100, 100] := by
            simp [progressTrace, genEvents, doWebsiteGeneration, genTryBody]
          rw [ht]; exact ⟨by norm_num [List.chain'_cons], by decide⟩
        · have ht : progressTrace ⟨true, some c, l, h, true⟩ =
              [0, 10, 20, 40, 45, 55, 60, 100] := by
            simp [progressTrace, genEvents, doWebsiteGeneration, genTryBody]
          rw [ht]; exact ⟨by norm_num [List.chain'_cons], by decide⟩

/-- C9: a feed event with a fresh transaction id is credited iff it
qualifies — for the token client: its operation tag lowercases to
`transfer` and its destination is the scanned wallet; for the native
client: it pays a positive amount to the scanned wallet (its records carry
no operation tag and every listed transaction is a plain transfer).
Events with any other operation tag, or paying nothing to the wallet,
leave the account unchanged. -/
theorem c9_transfer_filter (u : UserState) :
    (∀ tx : KasperTx, alreadyProcessed u tx.hashRev = false →
      (((kasperStep u tx).processedTransactions.length =
          u.processedTransactions.length + 1) ↔
        (jsToLower tx.op = "transfer" ∧ tx.toAddr = u.walletAddress)) ∧
      (jsToLower tx.op ≠ "transfer" → kasperStep u tx = u)) ∧
    (∀ tx : KaspaTx, alreadyProcessed u tx.hash = false →
      (((kaspaStep u tx).processedTransactions.length =
          u.processedTransactions.length + 1) ↔
        0 < sumToUser u.walletAddress tx) ∧
      (¬ 0 < sumToUser u.walletAddress tx → kaspaStep u tx = u)) := by
  constructor
  · intro tx hap
    have hiff : kasperQualifies u.walletAddress tx = true ↔
        (jsToLower tx.op = "transfer" ∧ tx.toAddr = u.walletAddress) := by
      simp [kasperQualifies]
    constructor
    · by_cases hq : kasperQualifies u.walletAddress tx = true
      · have hstep : kasperStep u tx = creditKasper u tx := by
          rw [kasperStep_eq]; simp [hq, hap]
        rw [hstep]
        simp [creditKasper, hiff.mp hq]
      · have hstep : kasperStep u tx = u := by
          rw [kasperStep_eq]; simp [Bool.eq_false_iff.mpr hq]
        rw [hstep]
        constructor
        · intro hlen; exact absurd hlen (by omega)
        · intro hc; exact absurd (hiff.mpr hc) hq
    · intro hne
      have hqf : kasperQualifies u.walletAddress tx = false := by
        apply Bool.eq_false_iff.mpr
        intro hq
        exact hne (hiff.mp hq).1
      rw [kasperStep_eq]; simp [hqf]
  · intro tx hap
    constructor
    · by_cases hs : 0 < sumToUser u.walletAddress tx
      · simp only [kaspaStep]
        rw [if_pos ⟨hs, by simp [hap]⟩]
        simp [hs]
      · simp only [kaspaStep]
        rw [if_neg (fun hcond => hs hcond.1)]
        constructor
        · intro hlen; exact absurd hlen (by omega)
        · intro hc; exact absurd hc hs
    · intro hs
      simp only [kaspaStep]
      rw [if_neg (fun hcond => hs hcond.1)]

/-- C9 witness: the theorem applied to the 800-KASPER transfer on a fresh
account. -/
theorem c9_witness :
    alreadyProcessed aliceEmpty tx800coins.hashRev = false ∧
    ((kasperStep aliceEmpty tx800coins).processedTransactions.length =
        aliceEmpty.processedTransactions.length + 1 ↔
      (jsToLower tx800coins.op = "transfer" ∧
       tx800coins.toAddr = aliceEmpty.walletAddress)) :=
  ⟨by decide, ((c9_transfer_filter aliceEmpty).1 tx800coins (by decide)).1⟩

/-- C10 counterexample: a qualifying token-chain (KASPER) transfer whose
transaction id equals the account's recorded native-chain (KAS) deposit is
skipped — the account is left unchanged — rather than credited once for
the token chain as the claim states. -/
theorem c10_counterexample :
    kasperQualifies uWithKasRecord.walletAddress txSameId = true ∧
    uWithKasRecord.processedTransactions.map ProcessedTx.coinType =
      [CoinType.KAS] ∧
    kasperStep uWithKasRecord txSameId = uWithKasRecord := by
  refine ⟨by decide, by decide, ?_⟩
  simp [kasperStep, uWithKasRecord, txSameId, alreadyProcessed]

/-- C10 as amended: deduplication is keyed on the external transaction id
alone, ignoring coin type: a deposit on either chain whose id is already
recorded for the account — even under the other coin type — is skipped. -/
theorem c10_amended_dedup_by_txid (u : UserState) :
    (∀ tx : KasperTx, alreadyProcessed u tx.hashRev = true →
      kasperStep u tx = u) ∧
    (∀ tx : KaspaTx, alreadyProcessed u tx.hash = true →
      kaspaStep u tx = u) := by
  constructor
  · intro tx h
    rw [kasperStep_eq]; simp [h]
  · intro tx h
    simp only [kaspaStep]
    rw [if_neg (fun hcond => hcond.2 h)]

/-- C10 witness: the amended theorem applied to the cross-coin collision
fixture. -/
theorem c10_witness :
    alreadyProcessed uWithKasRecord txSameId.hashRev = true ∧
    kasperStep uWithKasRecord txSameId = uWithKasRecord :=
  ⟨by decide, (c10_amended_dedup_by_txid uWithKasRecord).1 txSameId (by decide)⟩

end KasperBuilder
